import Mathlib

/-!
# Verification of the Streamtape relay bot's queue / retention core

Shallow embedding of the job-queue core of `src/main.py`:

* `cleanup_old_videos` (lines 141-157): the retention pass.  The code lists the
  regular files of `DOWNLOAD_DIR` as `(mtime, path)` pairs, sorts the pair list
  with Python's `list.sort()` (lexicographic on the pair: modification time
  first, path string breaking ties), and when the count exceeds
  `MAX_DOWNLOADED_VIDEOS` removes the first `count - MAX` entries, logging and
  skipping any `OSError` raised by `os.remove`.
* the body of the `process_queue` loop (lines 197-225): one job's pipeline
  (start notification, fetch, upload, success/failure notifications, deletion
  of the artifact on success, retention pass).
* `handle_youtube_link` (lines 173-191) and the `process_queue` loop skeleton
  (lines 194-228): queue / `is_processing` flag / worker-thread lifecycle,
  embedded as a small-step transition system.

Modelling conventions:

* A directory is a list of `(mtime, path)` entries in arbitrary (listdir)
  order.  Paths are naturals standing for the path strings; any finite set of
  distinct path strings embeds order-isomorphically into `ℕ`, and the code
  only ever compares paths (the sort's tie-break) or tests them for equality,
  so nothing is lost.
* The external collaborators (`yt-dlp` fetch, Streamtape upload, `os.remove`)
  are oracles: their per-call outcome is a parameter of the embedding.
* Telegram messages are structured events carrying the data the code
  interpolates into the message text.
-/

namespace StreamtapeBot

/-! ## Disk model and the retention pass (`cleanup_old_videos`, main.py 141-157) -/

/-- One resident file of the download directory: modification time paired with
the path, exactly the pairs the code builds at main.py line 144. -/
abbrev FileEntry := Nat × Nat

/-- A directory state: the regular files of `DOWNLOAD_DIR`, in listdir order. -/
abbrev Disk := List FileEntry

/-- Python's `files.sort()` order on `(mtime, path)` tuples: lexicographic,
modification time first, path breaking ties. -/
def fileLe (a b : FileEntry) : Prop := a.1 < b.1 ∨ (a.1 = b.1 ∧ a.2 ≤ b.2)

instance : DecidableRel fileLe := fun a b => by unfold fileLe; infer_instance

instance : IsTotal FileEntry fileLe := by
  constructor
  intro a b
  rcases Nat.lt_trichotomy a.1 b.1 with h | h | h
  · exact Or.inl (Or.inl h)
  · rcases Nat.le_total a.2 b.2 with h2 | h2
    · exact Or.inl (Or.inr ⟨h, h2⟩)
    · exact Or.inr (Or.inr ⟨h.symm, h2⟩)
  · exact Or.inr (Or.inl h)

instance : IsTrans FileEntry fileLe := by
  constructor
  intro a b c hab hbc
  rcases hab with h1 | ⟨e1, s1⟩
  · rcases hbc with h2 | ⟨e2, s2⟩
    · exact Or.inl (h1.trans h2)
    · exact Or.inl (e2 ▸ h1)
  · rcases hbc with h2 | ⟨e2, s2⟩
    · exact Or.inl (e1 ▸ h2)
    · exact Or.inr ⟨e1.trans e2, s1.trans s2⟩

/-- `files.sort()` at main.py line 146. -/
def sortDisk (d : Disk) : Disk := List.insertionSort fileLe d

/-- main.py line 22. -/
def MAX_DOWNLOADED_VIDEOS : Nat := 10

/-- The eviction loop of `cleanup_old_videos`, parametrised by the maximum
count (the spec's `enforce_limit(directory, max_count)`; the source fixes
`max_count = MAX_DOWNLOADED_VIDEOS`).  `removeFails p` tells whether
`os.remove(p)` raises `OSError`; a failed removal is logged and skipped, so the
file stays (main.py lines 151-155).  When the count is within the limit the
directory is untouched. -/
def enforce_limit (removeFails : Nat → Bool) (maxCount : Nat) (d : Disk) : Disk :=
  let files := sortDisk d
  if maxCount < files.length then
    (files.take (files.length - maxCount)).filter (fun f => removeFails f.2)
      ++ files.drop (files.length - maxCount)
  else d

/-- `cleanup_old_videos` (main.py 141-157). -/
def cleanup_old_videos (removeFails : Nat → Bool) (d : Disk) : Disk :=
  enforce_limit removeFails MAX_DOWNLOADED_VIDEOS d

/-! ## One job's pipeline (the body of the `process_queue` loop, main.py 197-225) -/

/-- The observable actions of one loop iteration, in program order.  The
notification constructors carry the data the code interpolates into the
message text sent to `chat_id`. -/
inductive Event
  /-- line 201: "Starting download for: {url}" -/
  | notifyStart (chat : Nat) (url : Nat)
  /-- line 209: "Download complete! Now uploading '{file}' to Streamtape..." -/
  | notifyUploading (chat : Nat) (file : Nat)
  /-- line 212: "Upload complete! Here's your Streamtape link: {link}" -/
  | notifySuccess (chat : Nat) (link : Nat)
  /-- line 220: "Failed to upload '{file}' to Streamtape." -/
  | notifyUploadFailed (chat : Nat) (file : Nat)
  /-- line 222: "Failed to download video from: {url}" -/
  | notifyFetchFailed (chat : Nat) (url : Nat)
  /-- line 210: the call to `upload_to_streamtape(file)` -/
  | uploadCall (file : Nat)
  /-- line 215: successful `os.remove(file)` of the artifact -/
  | removeFile (file : Nat)
  /-- line 225: the call to `cleanup_old_videos()` -/
  | retentionPass
deriving DecidableEq

/-- Failure notification, as counted by the spec's "exactly one failure
notification". -/
def Event.isFailureNotify : Event → Bool
  | .notifyUploadFailed _ _ => true
  | .notifyFetchFailed _ _ => true
  | _ => false

def Event.isUploadCall : Event → Bool
  | .uploadCall _ => true
  | _ => false

def Event.isRemoveFile : Event → Bool
  | .removeFile _ => true
  | _ => false

def Event.isRetention : Event → Bool
  | .retentionPass => true
  | _ => false

/-- One iteration of the `process_queue` loop (main.py 197-225) for the job
`(url, chat)`, against directory state `disk`.

Oracles for the collaborators:
* `fetchRes`: result of `download_youtube_video` — `some (tp, p)` when yt-dlp
  produced the file `p` with modification time `tp` (the file then resides in
  the directory), `none` on failure.
* `uploadRes`: result of `upload_to_streamtape` — `some link` or `none`.
* `removeFailed`: whether `os.remove(downloaded_file)` at line 215 raises
  `OSError` (caught and logged at 217-218).
* `cleanupFails`: the `os.remove` oracle of the retention pass.

Returns the event trace of the iteration and the final directory state. -/
def process_one_job (fetchRes : Option FileEntry) (uploadRes : Option Nat)
    (removeFailed : Bool) (cleanupFails : Nat → Bool)
    (chat : Nat) (url : Nat) (disk : Disk) : List Event × Disk :=
  match fetchRes with
  | none =>
      ([.notifyStart chat url, .notifyFetchFailed chat url, .retentionPass],
       cleanup_old_videos cleanupFails disk)
  | some (tp, p) =>
      let disk1 := disk ++ [(tp, p)]
      match uploadRes with
      | none =>
          ([.notifyStart chat url, .notifyUploading chat p, .uploadCall p,
            .notifyUploadFailed chat p, .retentionPass],
           cleanup_old_videos cleanupFails disk1)
      | some link =>
          if removeFailed then
            ([.notifyStart chat url, .notifyUploading chat p, .uploadCall p,
              .notifySuccess chat link, .retentionPass],
             cleanup_old_videos cleanupFails disk1)
          else
            ([.notifyStart chat url, .notifyUploading chat p, .uploadCall p,
              .notifySuccess chat link, .removeFile p, .retentionPass],
             cleanup_old_videos cleanupFails (disk1.filter (fun f => f.2 ≠ p)))

/-! ## Helper lemmas about the retention pass -/

theorem sortDisk_sorted (d : Disk) : List.Sorted fileLe (sortDisk d) :=
  List.sorted_insertionSort fileLe d

theorem sortDisk_perm (d : Disk) : List.Perm (sortDisk d) d :=
  List.perm_insertionSort fileLe d

theorem sortDisk_length (d : Disk) : (sortDisk d).length = d.length :=
  List.length_insertionSort fileLe d

/-- With no removal failures, the eviction loop keeps exactly the newest
`maxCount` files (the suffix of the sorted listing) when over the limit. -/
theorem enforce_limit_of_no_fail (o : Nat → Bool) (maxCount : Nat) (d : Disk)
    (hnf : ∀ p, o p = false) (hover : maxCount < d.length) :
    enforce_limit o maxCount d = (sortDisk d).drop (d.length - maxCount) := by
  have hfil : ((sortDisk d).take (d.length - maxCount)).filter (fun f => o f.2) = [] := by
    apply List.filter_eq_nil_iff.mpr
    intro a _
    simp [hnf a.2]
  simp only [enforce_limit, sortDisk_length, if_pos hover, hfil, List.nil_append]

/-- Under the limit, the pass is a no-op. -/
theorem enforce_limit_of_le (o : Nat → Bool) (maxCount : Nat) (d : Disk)
    (hle : d.length ≤ maxCount) : enforce_limit o maxCount d = d := by
  simp only [enforce_limit, sortDisk_length, if_neg (Nat.not_lt.mpr hle)]

/-- Every file the pass keeps was in the directory before the pass. -/
theorem mem_enforce_limit (o : Nat → Bool) (maxCount : Nat) (d : Disk)
    (x : FileEntry) (hx : x ∈ enforce_limit o maxCount d) : x ∈ d := by
  simp only [enforce_limit] at hx
  by_cases h : maxCount < (sortDisk d).length
  · simp only [if_pos h] at hx
    rcases List.mem_append.mp hx with h1 | h1
    · exact (sortDisk_perm d).mem_iff.mp (List.mem_of_mem_take (List.mem_of_mem_filter h1))
    · exact (sortDisk_perm d).mem_iff.mp (List.mem_of_mem_drop h1)
  · simpa [if_neg h] using hx

/-- With no removal failures the pass leaves at most `maxCount` files. -/
theorem enforce_limit_length_le (o : Nat → Bool) (maxCount : Nat) (d : Disk)
    (hnf : ∀ p, o p = false) : (enforce_limit o maxCount d).length ≤ maxCount := by
  by_cases hover : maxCount < d.length
  · rw [enforce_limit_of_no_fail o maxCount d hnf hover]
    rw [List.length_drop, sortDisk_length]
    omega
  · rw [enforce_limit_of_le o maxCount d (Nat.not_lt.mp hover)]
    omega

/-! ## Claims about the retention pass -/

/-- C5: for every directory whose regular-file count exceeds `max_count`, one
call to `enforce_limit` deletes exactly the `count - max_count` files with the
oldest modification times (every deleted file's mtime is at most every kept
file's mtime, whatever the names), and deletes nothing when the count is at or
below `max_count`. -/
theorem claim5_enforce_limit_evicts_oldest (maxCount : Nat) (d : Disk) (o : Nat → Bool)
    (hnf : ∀ p, o p = false) :
    (d.length ≤ maxCount → enforce_limit o maxCount d = d) ∧
    (maxCount < d.length →
      (enforce_limit o maxCount d).length = maxCount ∧
      List.Perm ((sortDisk d).take (d.length - maxCount) ++ enforce_limit o maxCount d) d ∧
      (∀ x ∈ (sortDisk d).take (d.length - maxCount),
        ∀ y ∈ enforce_limit o maxCount d, x.1 ≤ y.1)) := by
  constructor
  · exact enforce_limit_of_le o maxCount d
  · intro hover
    have he := enforce_limit_of_no_fail o maxCount d hnf hover
    refine ⟨?_, ?_, ?_⟩
    · rw [he, List.length_drop, sortDisk_length]
      omega
    · rw [he, List.take_append_drop]
      exact sortDisk_perm d
    · intro x hx y hy
      rw [he] at hy
      rcases (sortDisk_sorted d).rel_of_mem_take_of_mem_drop hx hy with h1 | ⟨h1, _⟩
      · exact Nat.le_of_lt h1
      · exact Nat.le_of_eq h1

/-- Witness for C5, on the spec's own instance: `max_count = 3` on 5 files
deletes exactly the 2 oldest by modification time even though they have the
largest path names (paths 26 and 25). -/
theorem claim5_witness :
    (∀ p : Nat, (fun _ : Nat => false) p = false) ∧
    ((([(5, 1), (1, 26), (3, 2), (2, 25), (4, 3)] : Disk).length ≤ 3 →
        enforce_limit (fun _ => false) 3 [(5, 1), (1, 26), (3, 2), (2, 25), (4, 3)] =
          [(5, 1), (1, 26), (3, 2), (2, 25), (4, 3)]) ∧
      (3 < ([(5, 1), (1, 26), (3, 2), (2, 25), (4, 3)] : Disk).length →
        (enforce_limit (fun _ => false) 3 [(5, 1), (1, 26), (3, 2), (2, 25), (4, 3)]).length = 3 ∧
        List.Perm
          ((sortDisk [(5, 1), (1, 26), (3, 2), (2, 25), (4, 3)]).take 2 ++
            enforce_limit (fun _ => false) 3 [(5, 1), (1, 26), (3, 2), (2, 25), (4, 3)])
          [(5, 1), (1, 26), (3, 2), (2, 25), (4, 3)] ∧
        (∀ x ∈ (sortDisk [(5, 1), (1, 26), (3, 2), (2, 25), (4, 3)]).take 2,
          ∀ y ∈ enforce_limit (fun _ => false) 3 [(5, 1), (1, 26), (3, 2), (2, 25), (4, 3)],
            x.1 ≤ y.1))) ∧
    enforce_limit (fun _ => false) 3 [(5, 1), (1, 26), (3, 2), (2, 25), (4, 3)] =
      [(3, 2), (4, 3), (5, 1)] ∧
    (sortDisk [(5, 1), (1, 26), (3, 2), (2, 25), (4, 3)]).take 2 = [(1, 26), (2, 25)] :=
  ⟨fun _ => rfl,
   claim5_enforce_limit_evicts_oldest 3 [(5, 1), (1, 26), (3, 2), (2, 25), (4, 3)]
     (fun _ => false) (fun _ => rfl),
   by decide, by decide⟩

/-- Counterexample to C6 as stated: when an individual deletion fails and is
skipped, the pass can leave MORE than `MAX_DOWNLOADED_VIDEOS` files.  Here the
directory holds 11 files and `os.remove` fails on the single file the pass
tries to evict, so all 11 remain. -/
theorem claim6_counterexample :
    ¬ ((cleanup_old_videos (fun p => p == 20)
        [(0, 20), (1, 1), (2, 2), (3, 3), (4, 4), (5, 5), (6, 6), (7, 7), (8, 8), (9, 9),
         (10, 10)]).length ≤ MAX_DOWNLOADED_VIDEOS) := by
  decide

/-- C6 amended: after a retention pass in which every attempted deletion
succeeds, at most `MAX_DOWNLOADED_VIDEOS` files remain resident; a failed
deletion is skipped and its file stays, so each failure can leave the count
one above the limit. -/
theorem claim6_retention_bound (d : Disk) (o : Nat → Bool) (hnf : ∀ p, o p = false) :
    (cleanup_old_videos o d).length ≤ MAX_DOWNLOADED_VIDEOS :=
  enforce_limit_length_le o MAX_DOWNLOADED_VIDEOS d hnf

/-- Witness for the amended C6: an 11-file directory is trimmed back to the
10-file limit when deletions succeed. -/
theorem claim6_witness :
    (∀ p : Nat, (fun _ : Nat => false) p = false) ∧
    (cleanup_old_videos (fun _ => false)
        [(0, 20), (1, 1), (2, 2), (3, 3), (4, 4), (5, 5), (6, 6), (7, 7), (8, 8), (9, 9),
         (10, 10)]).length ≤ MAX_DOWNLOADED_VIDEOS ∧
    (cleanup_old_videos (fun _ => false)
        [(0, 20), (1, 1), (2, 2), (3, 3), (4, 4), (5, 5), (6, 6), (7, 7), (8, 8), (9, 9),
         (10, 10)]).length = 10 :=
  ⟨fun _ => rfl,
   claim6_retention_bound
     [(0, 20), (1, 1), (2, 2), (3, 3), (4, 4), (5, 5), (6, 6), (7, 7), (8, 8), (9, 9), (10, 10)]
     (fun _ => false) (fun _ => rfl),
   by decide⟩

/-- C9: `enforce_limit` (as invoked by the worker, `cleanup_old_videos`) is
idempotent — with no intervening writes and no removal failures, a second pass
returns the directory unchanged. -/
theorem claim9_cleanup_idempotent (d : Disk) (o : Nat → Bool) (hnf : ∀ p, o p = false) :
    cleanup_old_videos o (cleanup_old_videos o d) = cleanup_old_videos o d :=
  enforce_limit_of_le o MAX_DOWNLOADED_VIDEOS (cleanup_old_videos o d)
    (enforce_limit_length_le o MAX_DOWNLOADED_VIDEOS d hnf)

/-- Witness for C9 on a 12-file directory. -/
theorem claim9_witness :
    (∀ p : Nat, (fun _ : Nat => false) p = false) ∧
    cleanup_old_videos (fun _ => false)
        (cleanup_old_videos (fun _ => false)
          [(12, 1), (11, 2), (0, 3), (1, 4), (2, 5), (3, 6), (4, 7), (5, 8), (6, 9), (7, 10),
           (8, 11), (9, 12)]) =
      cleanup_old_videos (fun _ => false)
        [(12, 1), (11, 2), (0, 3), (1, 4), (2, 5), (3, 6), (4, 7), (5, 8), (6, 9), (7, 10),
         (8, 11), (9, 12)] :=
  ⟨fun _ => rfl,
   claim9_cleanup_idempotent
     [(12, 1), (11, 2), (0, 3), (1, 4), (2, 5), (3, 6), (4, 7), (5, 8), (6, 9), (7, 10),
      (8, 11), (9, 12)]
     (fun _ => false) (fun _ => rfl)⟩

/-! ## Claims about one job's pipeline -/

/-- Counterexample to C1 as stated: a job whose fetch fails can still cause a
file to be deleted from the cache directory, because the retention pass at
main.py line 225 runs after every job, failed ones included.  Here the cache
holds 11 files when the fetch fails, and the oldest one is evicted. -/
theorem claim1_counterexample :
    ((0 : Nat), (15 : Nat)) ∈
        ([(0, 15), (1, 1), (2, 2), (3, 3), (4, 4), (5, 5), (6, 6), (7, 7), (8, 8), (9, 9),
          (10, 10)] : Disk) ∧
    ((0 : Nat), (15 : Nat)) ∉
      (process_one_job none none false (fun _ => false) 7 99
        [(0, 15), (1, 1), (2, 2), (3, 3), (4, 4), (5, 5), (6, 6), (7, 7), (8, 8), (9, 9),
         (10, 10)]).2 := by
  decide

/-- C1 amended: for every job whose fetch fails, the worker never calls
`upload_to_streamtape`, deletes nothing in the failure branch itself, sends
exactly one failure notification to the job's recipient, and the only
deletions are those of the retention pass, which still runs before the worker
proceeds to the next queued job. -/
theorem claim1_fetch_fail_isolated (uR : Option Nat) (rF : Bool) (o : Nat → Bool)
    (chat url : Nat) (disk : Disk) :
    process_one_job none uR rF o chat url disk =
      ([.notifyStart chat url, .notifyFetchFailed chat url, .retentionPass],
       cleanup_old_videos o disk) ∧
    (process_one_job none uR rF o chat url disk).1.countP (fun e => e.isFailureNotify) = 1 ∧
    (process_one_job none uR rF o chat url disk).1.countP (fun e => e.isUploadCall) = 0 ∧
    (process_one_job none uR rF o chat url disk).1.countP (fun e => e.isRemoveFile) = 0 := by
  refine ⟨rfl, ?_, ?_, ?_⟩ <;>
    simp [process_one_job, List.countP_cons, Event.isFailureNotify, Event.isUploadCall,
      Event.isRemoveFile]

/-- Counterexample to C7 as stated: the artifact fetched for a job whose
upload fails is NOT always left on disk.  The retention pass runs after the
failure branch, and yt-dlp preserves source timestamps, so the fresh artifact
(mtime 1 here) can be the oldest of an over-full cache and is evicted. -/
theorem claim7_counterexample :
    ((1 : Nat), (0 : Nat)) ∉
      (process_one_job (some (1, 0)) none false (fun _ => false) 7 99
        [(100, 1), (100, 2), (100, 3), (100, 4), (100, 5), (100, 6), (100, 7), (100, 8),
         (100, 9), (100, 10)]).2 ∧
    (process_one_job (some (1, 0)) none false (fun _ => false) 7 99
        [(100, 1), (100, 2), (100, 3), (100, 4), (100, 5), (100, 6), (100, 7), (100, 8),
         (100, 9), (100, 10)]).1.countP (fun e => e.isFailureNotify) = 1 := by
  decide

/-- C7 amended: for every job whose fetch succeeds and whose upload fails, the
failure branch itself deletes nothing and sends exactly one failure
notification; whenever the cache including the new artifact is within
`MAX_DOWNLOADED_VIDEOS`, the artifact is left on disk (the retention pass may
evict it only when the cache is over the limit and the artifact sorts among
the oldest). -/
theorem claim7_upload_fail_keeps_artifact (tp p : Nat) (rF : Bool) (o : Nat → Bool)
    (chat url : Nat) (disk : Disk)
    (hroom : disk.length + 1 ≤ MAX_DOWNLOADED_VIDEOS) :
    process_one_job (some (tp, p)) none rF o chat url disk =
      ([.notifyStart chat url, .notifyUploading chat p, .uploadCall p,
        .notifyUploadFailed chat p, .retentionPass], disk ++ [(tp, p)]) ∧
    (tp, p) ∈ (process_one_job (some (tp, p)) none rF o chat url disk).2 ∧
    (process_one_job (some (tp, p)) none rF o chat url disk).1.countP
      (fun e => e.isFailureNotify) = 1 ∧
    (process_one_job (some (tp, p)) none rF o chat url disk).1.countP
      (fun e => e.isRemoveFile) = 0 := by
  have hd : cleanup_old_videos o (disk ++ [(tp, p)]) = disk ++ [(tp, p)] := by
    apply enforce_limit_of_le
    simpa using hroom
  have hp : process_one_job (some (tp, p)) none rF o chat url disk =
      ([.notifyStart chat url, .notifyUploading chat p, .uploadCall p,
        .notifyUploadFailed chat p, .retentionPass], disk ++ [(tp, p)]) := by
    simp [process_one_job, hd]
  refine ⟨hp, ?_, ?_, ?_⟩
  · rw [hp]
    simp
  · rw [hp]
    simp [List.countP_cons, Event.isFailureNotify]
  · rw [hp]
    simp [List.countP_cons, Event.isRemoveFile]

/-- Witness for the amended C7: three resident files, upload fails, the
artifact (mtime 1, path 9) survives the pass. -/
theorem claim7_witness :
    (([(4, 1), (5, 2), (6, 3)] : Disk).length + 1 ≤ MAX_DOWNLOADED_VIDEOS) ∧
    ((1 : Nat), (9 : Nat)) ∈
      (process_one_job (some (1, 9)) none false (fun _ => false) 7 99
        [(4, 1), (5, 2), (6, 3)]).2 :=
  ⟨by decide,
   (claim7_upload_fail_keeps_artifact 1 9 false (fun _ => false) 7 99
     [(4, 1), (5, 2), (6, 3)] (by decide)).2.1⟩

/-- Counterexample to C8 as stated: a job whose fetch AND upload both succeed
does not always leave zero residual artifact.  When `os.remove` of the
artifact raises `OSError` (caught and logged at main.py 217-218), the upload
has already succeeded, yet the artifact (mtime 7, path 3) stays resident —
and the success notifications are emitted unchanged (no failure
notification), so the job counts as fully successful under the claim's own
scope. -/
theorem claim8_counterexample :
    ((7 : Nat), (3 : Nat)) ∈
      (process_one_job (some (7, 3)) (some 42) true (fun _ => false) 1 2 [(5, 1), (6, 2)]).2 ∧
    (process_one_job (some (7, 3)) (some 42) true (fun _ => false) 1 2
      [(5, 1), (6, 2)]).1.countP (fun e => e.isFailureNotify) = 0 ∧
    (process_one_job (some (7, 3)) (some 42) true (fun _ => false) 1 2
      [(5, 1), (6, 2)]).1.countP (fun e => e.isRetention) = 1 := by
  decide

/-- C8 amended: a fully successful job whose artifact removal also succeeds
(`os.remove` raises no `OSError`) emits exactly the start notification, the
upload-start notification and the success notification carrying the public
URL, leaves no residual artifact at the fetched path, and triggers exactly
one retention pass; when the removal fails, the error is logged and
swallowed, the notifications and the single retention pass are unchanged,
and the artifact can stay resident (see the counterexample above). -/
theorem claim8_success_trace (tp p link : Nat) (o : Nat → Bool) (chat url : Nat)
    (disk : Disk) :
    process_one_job (some (tp, p)) (some link) false o chat url disk =
      ([.notifyStart chat url, .notifyUploading chat p, .uploadCall p,
        .notifySuccess chat link, .removeFile p, .retentionPass],
       cleanup_old_videos o ((disk ++ [(tp, p)]).filter (fun f => f.2 ≠ p))) ∧
    (∀ e ∈ (process_one_job (some (tp, p)) (some link) false o chat url disk).2, e.2 ≠ p) ∧
    (process_one_job (some (tp, p)) (some link) false o chat url disk).1.countP
      (fun e => e.isRetention) = 1 ∧
    (process_one_job (some (tp, p)) (some link) false o chat url disk).1.countP
      (fun e => e.isFailureNotify) = 0 := by
  refine ⟨rfl, ?_, ?_, ?_⟩
  · intro e he
    have h1 : e ∈ (disk ++ [(tp, p)]).filter (fun f => f.2 ≠ p) :=
      mem_enforce_limit o MAX_DOWNLOADED_VIDEOS _ e he
    have h2 := List.of_mem_filter h1
    simpa using h2
  · simp [process_one_job, List.countP_cons, Event.isRetention]
  · simp [process_one_job, List.countP_cons, Event.isFailureNotify]

/-- C10: every dequeued job — fetch failed, upload failed or fully successful —
triggers exactly one retention pass, after that job's success-or-failure
branch completes (it is the last action of the iteration); and the pass can
evict files even while processing a job that failed, as the final conjunct
shows on an over-full 11-file cache with a failed fetch. -/
theorem claim10_one_retention_per_job (fetchRes : Option FileEntry) (uploadRes : Option Nat)
    (rF : Bool) (o : Nat → Bool) (chat url : Nat) (disk : Disk) :
    (∃ es, (process_one_job fetchRes uploadRes rF o chat url disk).1 =
        es ++ [Event.retentionPass] ∧ Event.retentionPass ∉ es) ∧
    (process_one_job none none false (fun _ => false) 1 2
        [(3, 1), (4, 2), (5, 3), (6, 4), (7, 5), (8, 6), (9, 7), (10, 8), (11, 9), (12, 10),
         (13, 11)]).2.length <
      ([(3, 1), (4, 2), (5, 3), (6, 4), (7, 5), (8, 6), (9, 7), (10, 8), (11, 9), (12, 10),
        (13, 11)] : Disk).length := by
  constructor
  · rcases fetchRes with _ | ⟨tp, p⟩
    · exact ⟨[.notifyStart chat url, .notifyFetchFailed chat url], rfl, by simp⟩
    · rcases uploadRes with _ | link
      · exact ⟨[.notifyStart chat url, .notifyUploading chat p, .uploadCall p,
          .notifyUploadFailed chat p], rfl, by simp⟩
      · rcases rF with _ | _
        · exact ⟨[.notifyStart chat url, .notifyUploading chat p, .uploadCall p,
            .notifySuccess chat link, .removeFile p], by simp [process_one_job], by simp⟩
        · exact ⟨[.notifyStart chat url, .notifyUploading chat p, .uploadCall p,
            .notifySuccess chat link], by simp [process_one_job], by simp⟩
  · decide

/-! ## Queue / flag / worker lifecycle
(`handle_youtube_link`, main.py 173-191, and `process_queue`, main.py 194-228)

Small-step model of the producer/worker interleavings.

* Jobs are identified by their submission sequence number, assigned by the
  producer in arrival order (the payload `(youtube_url, chat_id)` plays no
  role in the queue/flag logic).
* A `submit` models the accepted-link path of `handle_youtube_link` lines
  182-188: `video_queue.put(...)` followed by `if not is_processing:
  is_processing = True; Thread(target=process_queue).start()`.  Handlers are
  coroutines of the single telegram event loop and this region contains no
  `await`, so no two submits interleave inside it; the worker thread's only
  concurrent write (`is_processing = False`) is a single assignment that
  orders before or after the region, which the interleaving of `submit` with
  the separate `wExit` step captures.  The flag is the module global
  `is_processing`; a spawned worker starts at the top of its `while` loop.
* The worker runs on its own thread, so its steps interleave freely with
  submits.  Crucially, finding the queue empty (the `while not
  video_queue.empty()` test failing, `wLoopEmpty`) and clearing the flag at
  line 227 (`wExit`) are two separate steps, exactly as in the code.
* Each iteration of the loop body is broken into per-statement steps
  (notifications append to the global `log`, tagged with the job id; fetch
  and upload outcomes are nondeterministic).  `completed` records finished
  iterations in order.
-/

/-- Program counter inside one iteration of the `process_queue` loop body. -/
inductive Phase
  | notifyStartP
  | fetchP
  | notifyUploadP
  | uploadP
  | notifySuccP
  | removeP
  | notifyUpFailP
  | notifyFetchFailP
  | cleanupP
deriving DecidableEq

/-- Kind of a notification sent by the worker (the five `send_message_to_chat`
calls at main.py lines 201, 209, 212, 220, 222). -/
inductive NKind
  | startN
  | uploadN
  | succN
  | upFailN
  | fetchFailN
deriving DecidableEq

/-- State of one worker thread: at the top of the `while` loop, inside the
body processing job `jid`, or past the loop but not yet terminated (the
window between the failed emptiness test and `is_processing = False`). -/
inductive WStatus
  | loop
  | inJob (jid : Nat) (ph : Phase)
  | exiting
deriving DecidableEq

/-- Global state: `video_queue`, `is_processing`, the running worker threads,
the ordered log of worker notifications (job id, kind), the jobs whose
iteration has finished, and the next submission sequence number. -/
structure Sys where
  queue : List Nat
  flag : Bool
  workers : List WStatus
  log : List (Nat × NKind)
  completed : List Nat
  nextId : Nat
deriving DecidableEq

/-- Process start: empty queue, `is_processing = False`, no worker. -/
def initSys : Sys := ⟨[], false, [], [], [], 0⟩

/-- The producer's critical region (main.py 182-188): enqueue, then
test-and-set `is_processing`, spawning one worker on the False→True edge. -/
def submitStep (s : Sys) : Sys :=
  { s with
    queue := s.queue ++ [s.nextId],
    flag := true,
    workers := if s.flag then s.workers else s.workers ++ [.loop],
    nextId := s.nextId + 1 }

/-- The job a worker currently owns. -/
def wjob : WStatus → List Nat
  | .inJob j _ => [j]
  | _ => []

@[simp] theorem wjob_loop : wjob .loop = [] := rfl

@[simp] theorem wjob_inJob (j : Nat) (ph : Phase) : wjob (.inJob j ph) = [j] := rfl

@[simp] theorem wjob_exiting : wjob .exiting = [] := rfl

/-- Jobs currently owned by some worker. -/
def cur (s : Sys) : List Nat := (s.workers.map wjob).flatten

/-- One interleaved step of the system.  Worker steps act on the head of
`workers` (all reachable states have at most one worker, as proved below). -/
inductive Step : Sys → Sys → Prop
  /-- `handle_youtube_link` accepts a link (main.py 182-188). -/
  | submit (s : Sys) : Step s (submitStep s)
  /-- `while not video_queue.empty()` finds a job and `video_queue.get()`
  dequeues it (main.py 197-198). -/
  | wLoopDeq (s : Sys) (j : Nat) (q' : List Nat) (rest : List WStatus)
      (hw : s.workers = .loop :: rest) (hq : s.queue = j :: q') :
      Step s { s with queue := q', workers := .inJob j .notifyStartP :: rest }
  /-- `while not video_queue.empty()` finds the queue empty (main.py 197). -/
  | wLoopEmpty (s : Sys) (rest : List WStatus)
      (hw : s.workers = .loop :: rest) (hq : s.queue = []) :
      Step s { s with workers := .exiting :: rest }
  /-- `is_processing = False` and thread termination (main.py 227-228). -/
  | wExit (s : Sys) (rest : List WStatus) (hw : s.workers = .exiting :: rest) :
      Step s { s with flag := false, workers := rest }
  /-- line 201: start notification. -/
  | wNotifyStart (s : Sys) (j : Nat) (rest : List WStatus)
      (hw : s.workers = .inJob j .notifyStartP :: rest) :
      Step s { s with workers := .inJob j .fetchP :: rest, log := s.log ++ [(j, .startN)] }
  /-- line 206: `download_youtube_video` returns a path. -/
  | wFetchOk (s : Sys) (j : Nat) (rest : List WStatus)
      (hw : s.workers = .inJob j .fetchP :: rest) :
      Step s { s with workers := .inJob j .notifyUploadP :: rest }
  /-- line 206: `download_youtube_video` returns None. -/
  | wFetchFail (s : Sys) (j : Nat) (rest : List WStatus)
      (hw : s.workers = .inJob j .fetchP :: rest) :
      Step s { s with workers := .inJob j .notifyFetchFailP :: rest }
  /-- line 209: upload-start notification. -/
  | wNotifyUpload (s : Sys) (j : Nat) (rest : List WStatus)
      (hw : s.workers = .inJob j .notifyUploadP :: rest) :
      Step s { s with workers := .inJob j .uploadP :: rest, log := s.log ++ [(j, .uploadN)] }
  /-- line 210: `upload_to_streamtape` returns a link. -/
  | wUploadOk (s : Sys) (j : Nat) (rest : List WStatus)
      (hw : s.workers = .inJob j .uploadP :: rest) :
      Step s { s with workers := .inJob j .notifySuccP :: rest }
  /-- line 210: `upload_to_streamtape` returns None. -/
  | wUploadFail (s : Sys) (j : Nat) (rest : List WStatus)
      (hw : s.workers = .inJob j .uploadP :: rest) :
      Step s { s with workers := .inJob j .notifyUpFailP :: rest }
  /-- line 212: success notification. -/
  | wNotifySucc (s : Sys) (j : Nat) (rest : List WStatus)
      (hw : s.workers = .inJob j .notifySuccP :: rest) :
      Step s { s with workers := .inJob j .removeP :: rest, log := s.log ++ [(j, .succN)] }
  /-- lines 214-218: `os.remove` of the artifact. -/
  | wRemove (s : Sys) (j : Nat) (rest : List WStatus)
      (hw : s.workers = .inJob j .removeP :: rest) :
      Step s { s with workers := .inJob j .cleanupP :: rest }
  /-- line 220: upload-failure notification. -/
  | wNotifyUpFail (s : Sys) (j : Nat) (rest : List WStatus)
      (hw : s.workers = .inJob j .notifyUpFailP :: rest) :
      Step s { s with workers := .inJob j .cleanupP :: rest, log := s.log ++ [(j, .upFailN)] }
  /-- line 222: fetch-failure notification. -/
  | wNotifyFetchFail (s : Sys) (j : Nat) (rest : List WStatus)
      (hw : s.workers = .inJob j .notifyFetchFailP :: rest) :
      Step s { s with workers := .inJob j .cleanupP :: rest, log := s.log ++ [(j, .fetchFailN)] }
  /-- line 225: the retention pass ends the iteration; back to the loop test. -/
  | wCleanup (s : Sys) (j : Nat) (rest : List WStatus)
      (hw : s.workers = .inJob j .cleanupP :: rest) :
      Step s { s with workers := .loop :: rest, completed := s.completed ++ [j] }

/-- States reachable from process start. -/
inductive Reachable : Sys → Prop
  | init : Reachable initSys
  | step {s s' : Sys} : Reachable s → Step s s' → Reachable s'

/-- The inductive invariant: at most one worker; no worker once the flag is
clear; completed jobs, the in-flight job and the queued jobs partition the
submitted ids in order; every logged id belongs to a completed or in-flight
job; log ids are nondecreasing. -/
def Inv (s : Sys) : Prop :=
  s.workers.length ≤ 1 ∧
  (s.flag = false → s.workers = []) ∧
  s.completed ++ cur s ++ s.queue = List.range s.nextId ∧
  (∀ e ∈ s.log, e.1 < s.completed.length + (cur s).length) ∧
  s.log.Pairwise (fun a b => a.1 ≤ b.1)

/-- A left factor of `List.range n` is itself a range. -/
theorem eq_range_of_append {a b : List Nat} {n : Nat} (h : a ++ b = List.range n) :
    a = List.range a.length := by
  have h1 : a.length ≤ n := by
    have := congrArg List.length h
    simp at this
    omega
  have h2 : a = (List.range n).take a.length := by
    rw [← h, List.take_left]
  have h3 : (List.range n).take a.length = List.range a.length := by
    rw [List.take_range, min_eq_left h1]
  exact h2.trans h3

/-- The element after a left factor of `List.range n` is the factor's length. -/
theorem mid_eq_length {a b : List Nat} {j n : Nat} (h : a ++ [j] ++ b = List.range n) :
    j = a.length := by
  have h3 : a = List.range a.length :=
    eq_range_of_append (a := a) (b := [j] ++ b) (by simpa [List.append_assoc] using h)
  have h1 : (a ++ [j]) ++ b = List.range n := by
    simpa [List.append_assoc] using h
  have h2 : a ++ [j] = List.range (a.length + 1) := by
    have := eq_range_of_append h1
    simpa using this
  rw [List.range_succ] at h2
  have h5 : List.range a.length ++ [j] = List.range a.length ++ [a.length] := by
    conv_lhs => rw [← h3]
    exact h2
  have := List.append_cancel_left h5
  simpa using this

theorem rest_nil {s : Sys} {w : WStatus} {rest : List WStatus}
    (hw : s.workers = w :: rest) (h1 : s.workers.length ≤ 1) : rest = [] := by
  rw [hw] at h1
  simp only [List.length_cons] at h1
  exact List.length_eq_zero.mp (by omega)

theorem flag_true_of_worker {s : Sys} {w : WStatus} {rest : List WStatus}
    (hw : s.workers = w :: rest) (h2 : s.flag = false → s.workers = []) : s.flag = true := by
  cases hfl : s.flag with
  | true => rfl
  | false =>
      rw [h2 hfl] at hw
      exact absurd hw (by simp)

/-- The invariant is preserved by every step. -/
theorem inv_step {s s' : Sys} (hi : Inv s) (hs : Step s s') : Inv s' := by
  obtain ⟨h1, h2, h3, h4, h5⟩ := hi
  cases hs with
  | submit =>
      have hcur : cur (submitStep s) = cur s := by
        by_cases hf : s.flag <;> simp [cur, submitStep, hf, wjob]
      refine ⟨?_, ?_, ?_, ?_, ?_⟩
      · by_cases hf : s.flag
        · simpa [submitStep, hf] using h1
        · have hw0 := h2 (by simpa using hf)
          simp [submitStep, hf, hw0]
      · intro hff
        simp [submitStep] at hff
      · rw [hcur]
        show s.completed ++ cur s ++ (s.queue ++ [s.nextId]) = List.range (s.nextId + 1)
        rw [List.range_succ, ← h3]
        simp [List.append_assoc]
      · intro e he
        rw [hcur]
        exact h4 e he
      · exact h5
  | wLoopDeq j q' rest hw hq =>
      have hr0 : rest = [] := rest_nil hw h1
      subst hr0
      have hcur : cur s = [] := by simp [cur, hw, wjob]
      rw [hcur] at h3 h4
      refine ⟨by simp, ?_, ?_, ?_, ?_⟩
      · intro hff
        rw [h2 hff] at hw
        exact absurd hw (by simp)
      · rw [hq] at h3
        simp only [cur, wjob]
        simpa using h3
      · intro e he
        have := h4 e he
        simp at this
        simp only [cur, wjob]
        simp
        omega
      · exact h5
  | wLoopEmpty rest hw hq =>
      have hr0 : rest = [] := rest_nil hw h1
      subst hr0
      have hcur : cur s = [] := by simp [cur, hw, wjob]
      rw [hcur] at h3 h4
      refine ⟨by simp, ?_, ?_, ?_, ?_⟩
      · intro hff
        rw [h2 hff] at hw
        exact absurd hw (by simp)
      · simp only [cur, wjob]
        simpa using h3
      · intro e he
        have := h4 e he
        simp only [cur, wjob]
        simpa using this
      · exact h5
  | wExit rest hw =>
      have hr0 : rest = [] := rest_nil hw h1
      subst hr0
      have hcur : cur s = [] := by simp [cur, hw, wjob]
      rw [hcur] at h3 h4
      refine ⟨by simp, ?_, ?_, ?_, ?_⟩
      · intro _
        rfl
      · simp only [cur, wjob]
        simpa using h3
      · intro e he
        have := h4 e he
        simp only [cur, wjob]
        simpa using this
      · exact h5
  | wNotifyStart j rest hw =>
      have hr0 : rest = [] := rest_nil hw h1
      subst hr0
      have hcur : cur s = [j] := by simp [cur, hw, wjob]
      rw [hcur] at h3 h4
      have hj : j = s.completed.length := mid_eq_length h3
      refine ⟨by simp, ?_, ?_, ?_, ?_⟩
      · intro hff
        rw [h2 hff] at hw
        exact absurd hw (by simp)
      · simp only [cur, wjob]
        simpa using h3
      · intro e he
        simp only [cur, wjob]
        rcases List.mem_append.mp he with hm | hm
        · have := h4 e hm
          simpa using this
        · simp at hm
          simp [hm, hj]
      · rw [List.pairwise_append]
        refine ⟨h5, by simp, ?_⟩
        intro a ha b hb
        simp at hb
        have := h4 a ha
        rw [hb, hj]
        simp at this
        omega
  | wFetchOk j rest hw =>
      have hr0 : rest = [] := rest_nil hw h1
      subst hr0
      have hcur : cur s = [j] := by simp [cur, hw, wjob]
      rw [hcur] at h3 h4
      refine ⟨by simp, ?_, ?_, ?_, ?_⟩
      · intro hff
        rw [h2 hff] at hw
        exact absurd hw (by simp)
      · simp only [cur, wjob]
        simpa using h3
      · intro e he
        have := h4 e he
        simp only [cur, wjob]
        simpa using this
      · exact h5
  | wFetchFail j rest hw =>
      have hr0 : rest = [] := rest_nil hw h1
      subst hr0
      have hcur : cur s = [j] := by simp [cur, hw, wjob]
      rw [hcur] at h3 h4
      refine ⟨by simp, ?_, ?_, ?_, ?_⟩
      · intro hff
        rw [h2 hff] at hw
        exact absurd hw (by simp)
      · simp only [cur, wjob]
        simpa using h3
      · intro e he
        have := h4 e he
        simp only [cur, wjob]
        simpa using this
      · exact h5
  | wNotifyUpload j rest hw =>
      have hr0 : rest = [] := rest_nil hw h1
      subst hr0
      have hcur : cur s = [j] := by simp [cur, hw, wjob]
      rw [hcur] at h3 h4
      have hj : j = s.completed.length := mid_eq_length h3
      refine ⟨by simp, ?_, ?_, ?_, ?_⟩
      · intro hff
        rw [h2 hff] at hw
        exact absurd hw (by simp)
      · simp only [cur, wjob]
        simpa using h3
      · intro e he
        simp only [cur, wjob]
        rcases List.mem_append.mp he with hm | hm
        · have := h4 e hm
          simpa using this
        · simp at hm
          simp [hm, hj]
      · rw [List.pairwise_append]
        refine ⟨h5, by simp, ?_⟩
        intro a ha b hb
        simp at hb
        have := h4 a ha
        rw [hb, hj]
        simp at this
        omega
  | wUploadOk j rest hw =>
      have hr0 : rest = [] := rest_nil hw h1
      subst hr0
      have hcur : cur s = [j] := by simp [cur, hw, wjob]
      rw [hcur] at h3 h4
      refine ⟨by simp, ?_, ?_, ?_, ?_⟩
      · intro hff
        rw [h2 hff] at hw
        exact absurd hw (by simp)
      · simp only [cur, wjob]
        simpa using h3
      · intro e he
        have := h4 e he
        simp only [cur, wjob]
        simpa using this
      · exact h5
  | wUploadFail j rest hw =>
      have hr0 : rest = [] := rest_nil hw h1
      subst hr0
      have hcur : cur s = [j] := by simp [cur, hw, wjob]
      rw [hcur] at h3 h4
      refine ⟨by simp, ?_, ?_, ?_, ?_⟩
      · intro hff
        rw [h2 hff] at hw
        exact absurd hw (by simp)
      · simp only [cur, wjob]
        simpa using h3
      · intro e he
        have := h4 e he
        simp only [cur, wjob]
        simpa using this
      · exact h5
  | wNotifySucc j rest hw =>
      have hr0 : rest = [] := rest_nil hw h1
      subst hr0
      have hcur : cur s = [j] := by simp [cur, hw, wjob]
      rw [hcur] at h3 h4
      have hj : j = s.completed.length := mid_eq_length h3
      refine ⟨by simp, ?_, ?_, ?_, ?_⟩
      · intro hff
        rw [h2 hff] at hw
        exact absurd hw (by simp)
      · simp only [cur, wjob]
        simpa using h3
      · intro e he
        simp only [cur, wjob]
        rcases List.mem_append.mp he with hm | hm
        · have := h4 e hm
          simpa using this
        · simp at hm
          simp [hm, hj]
      · rw [List.pairwise_append]
        refine ⟨h5, by simp, ?_⟩
        intro a ha b hb
        simp at hb
        have := h4 a ha
        rw [hb, hj]
        simp at this
        omega
  | wRemove j rest hw =>
      have hr0 : rest = [] := rest_nil hw h1
      subst hr0
      have hcur : cur s = [j] := by simp [cur, hw, wjob]
      rw [hcur] at h3 h4
      refine ⟨by simp, ?_, ?_, ?_, ?_⟩
      · intro hff
        rw [h2 hff] at hw
        exact absurd hw (by simp)
      · simp only [cur, wjob]
        simpa using h3
      · intro e he
        have := h4 e he
        simp only [cur, wjob]
        simpa using this
      · exact h5
  | wNotifyUpFail j rest hw =>
      have hr0 : rest = [] := rest_nil hw h1
      subst hr0
      have hcur : cur s = [j] := by simp [cur, hw, wjob]
      rw [hcur] at h3 h4
      have hj : j = s.completed.length := mid_eq_length h3
      refine ⟨by simp, ?_, ?_, ?_, ?_⟩
      · intro hff
        rw [h2 hff] at hw
        exact absurd hw (by simp)
      · simp only [cur, wjob]
        simpa using h3
      · intro e he
        simp only [cur, wjob]
        rcases List.mem_append.mp he with hm | hm
        · have := h4 e hm
          simpa using this
        · simp at hm
          simp [hm, hj]
      · rw [List.pairwise_append]
        refine ⟨h5, by simp, ?_⟩
        intro a ha b hb
        simp at hb
        have := h4 a ha
        rw [hb, hj]
        simp at this
        omega
  | wNotifyFetchFail j rest hw =>
      have hr0 : rest = [] := rest_nil hw h1
      subst hr0
      have hcur : cur s = [j] := by simp [cur, hw, wjob]
      rw [hcur] at h3 h4
      have hj : j = s.completed.length := mid_eq_length h3
      refine ⟨by simp, ?_, ?_, ?_, ?_⟩
      · intro hff
        rw [h2 hff] at hw
        exact absurd hw (by simp)
      · simp only [cur, wjob]
        simpa using h3
      · intro e he
        simp only [cur, wjob]
        rcases List.mem_append.mp he with hm | hm
        · have := h4 e hm
          simpa using this
        · simp at hm
          simp [hm, hj]
      · rw [List.pairwise_append]
        refine ⟨h5, by simp, ?_⟩
        intro a ha b hb
        simp at hb
        have := h4 a ha
        rw [hb, hj]
        simp at this
        omega
  | wCleanup j rest hw =>
      have hr0 : rest = [] := rest_nil hw h1
      subst hr0
      have hcur : cur s = [j] := by simp [cur, hw, wjob]
      rw [hcur] at h3 h4
      refine ⟨by simp, ?_, ?_, ?_, ?_⟩
      · intro hff
        rw [h2 hff] at hw
        exact absurd hw (by simp)
      · simp only [cur, wjob]
        simp
        simpa [List.append_assoc] using h3
      · intro e he
        have := h4 e he
        simp at this
        simp only [cur, wjob]
        simp
        omega
      · exact h5

/-- Every reachable state satisfies the invariant. -/
theorem inv_reach {s : Sys} (h : Reachable s) : Inv s := by
  induction h with
  | init =>
      refine ⟨by simp [initSys], by intro _; rfl, by simp [initSys, cur], ?_, ?_⟩
      · intro e he
        simp [initSys] at he
      · simp [initSys]
  | step _ hs ih => exact inv_step ih hs

/-- With no worker alive, the only enabled step is a submit. -/
theorem step_no_worker {s s' : Sys} (hw0 : s.workers = []) (hs : Step s s') :
    s' = submitStep s := by
  cases hs <;> simp_all

/-! ## Claims about the worker lifecycle -/

/-- C3: in every reachable state at most one worker is active, and a step
from an inactive flag (necessarily a submit, since no worker exists then)
sets the flag and starts exactly one worker, while no step taken under an
active flag ever starts one. -/
theorem claim3_single_worker {s s' : Sys} (hr : Reachable s) (hs : Step s s') :
    s.workers.length ≤ 1 ∧ s'.workers.length ≤ 1 ∧
    (s.flag = false →
      s'.flag = true ∧ s'.workers.length = s.workers.length + 1) ∧
    (s.flag = true → s'.workers.length ≤ s.workers.length) := by
  have hi := inv_reach hr
  have hi' := inv_step hi hs
  obtain ⟨h1, h2, -, -, -⟩ := hi
  obtain ⟨h1', -, -, -, -⟩ := hi'
  refine ⟨h1, h1', ?_, ?_⟩
  · intro hf
    have hw0 : s.workers = [] := h2 hf
    have hsub := step_no_worker hw0 hs
    subst hsub
    refine ⟨rfl, ?_⟩
    simp [submitStep, hf, hw0]
  · intro hf
    cases hs <;> simp_all [submitStep]

/-- `n` back-to-back submit regions from process start (the producer handlers
run on one event loop, so a burst of concurrent submits executes their
critical regions in some serial order). -/
def burst : Nat → Sys
  | 0 => initSys
  | n + 1 => submitStep (burst n)

theorem reach_burst (n : Nat) : Reachable (burst n) := by
  induction n with
  | zero => exact Reachable.init
  | succ n ih => exact Reachable.step ih (Step.submit (burst n))

set_option maxRecDepth 10000 in
/-- Witness for C3: the 100th of 100 concurrent submits into an idle queue;
afterwards exactly one worker exists and all 100 jobs are queued. -/
theorem claim3_witness :
    Reachable (burst 99) ∧ Step (burst 99) (burst 100) ∧
    ((burst 99).workers.length ≤ 1 ∧ (burst 100).workers.length ≤ 1 ∧
      ((burst 99).flag = false →
        (burst 100).flag = true ∧
          (burst 100).workers.length = (burst 99).workers.length + 1) ∧
      ((burst 99).flag = true → (burst 100).workers.length ≤ (burst 99).workers.length)) ∧
    (burst 100).workers = [WStatus.loop] ∧ (burst 100).queue.length = 100 :=
  ⟨reach_burst 99, Step.submit (burst 99),
   claim3_single_worker (reach_burst 99) (Step.submit (burst 99)),
   by decide, by decide⟩

/-- C4: in every reachable state, jobs have completed in exactly submission
order (`completed` is an initial segment of the submission sequence), the
job a worker is processing is the next one after all completed jobs, and the
notification log is ordered by job id — all notifications of an earlier job
precede every notification of a later job. -/
theorem claim4_fifo_order {s : Sys} (hr : Reachable s) :
    s.completed = List.range s.completed.length ∧
    (∀ j ∈ cur s, j = s.completed.length) ∧
    s.log.Pairwise (fun a b => a.1 ≤ b.1) := by
  obtain ⟨h1, -, h3, -, h5⟩ := inv_reach hr
  refine ⟨?_, ?_, h5⟩
  · exact eq_range_of_append (a := s.completed) (b := cur s ++ s.queue)
      (by simpa [List.append_assoc] using h3)
  · intro j hj
    cases hws : s.workers with
    | nil =>
        rw [cur, hws] at hj
        simp at hj
    | cons w rest =>
        have hr0 : rest = [] := rest_nil hws h1
        subst hr0
        cases w with
        | loop =>
            rw [cur, hws] at hj
            simp at hj
        | exiting =>
            rw [cur, hws] at hj
            simp at hj
        | inJob j' ph =>
            have hc : cur s = [j'] := by simp [cur, hws]
            rw [hc] at h3 hj
            simp at hj
            rw [hj]
            exact mid_eq_length h3

/-- A concrete run for the C4 witness: job 0 is submitted, fetched, uploaded
and completed; job 1 is then submitted and dequeued. -/
theorem reach_demo4 :
    Reachable (⟨[], true, [WStatus.inJob 1 Phase.notifyStartP],
      [(0, NKind.startN), (0, NKind.uploadN), (0, NKind.succN)], [0], 2⟩ : Sys) := by
  have r1 : Reachable (⟨[0], true, [WStatus.loop], [], [], 1⟩ : Sys) :=
    Reachable.step Reachable.init (Step.submit _)
  have r2 : Reachable (⟨[], true, [WStatus.inJob 0 Phase.notifyStartP], [], [], 1⟩ : Sys) :=
    Reachable.step r1 (Step.wLoopDeq _ 0 [] [] rfl rfl)
  have r3 : Reachable (⟨[], true, [WStatus.inJob 0 Phase.fetchP],
      [(0, NKind.startN)], [], 1⟩ : Sys) :=
    Reachable.step r2 (Step.wNotifyStart _ 0 [] rfl)
  have r4 : Reachable (⟨[], true, [WStatus.inJob 0 Phase.notifyUploadP],
      [(0, NKind.startN)], [], 1⟩ : Sys) :=
    Reachable.step r3 (Step.wFetchOk _ 0 [] rfl)
  have r5 : Reachable (⟨[], true, [WStatus.inJob 0 Phase.uploadP],
      [(0, NKind.startN), (0, NKind.uploadN)], [], 1⟩ : Sys) :=
    Reachable.step r4 (Step.wNotifyUpload _ 0 [] rfl)
  have r6 : Reachable (⟨[], true, [WStatus.inJob 0 Phase.notifySuccP],
      [(0, NKind.startN), (0, NKind.uploadN)], [], 1⟩ : Sys) :=
    Reachable.step r5 (Step.wUploadOk _ 0 [] rfl)
  have r7 : Reachable (⟨[], true, [WStatus.inJob 0 Phase.removeP],
      [(0, NKind.startN), (0, NKind.uploadN), (0, NKind.succN)], [], 1⟩ : Sys) :=
    Reachable.step r6 (Step.wNotifySucc _ 0 [] rfl)
  have r8 : Reachable (⟨[], true, [WStatus.inJob 0 Phase.cleanupP],
      [(0, NKind.startN), (0, NKind.uploadN), (0, NKind.succN)], [], 1⟩ : Sys) :=
    Reachable.step r7 (Step.wRemove _ 0 [] rfl)
  have r9 : Reachable (⟨[], true, [WStatus.loop],
      [(0, NKind.startN), (0, NKind.uploadN), (0, NKind.succN)], [0], 1⟩ : Sys) :=
    Reachable.step r8 (Step.wCleanup _ 0 [] rfl)
  have r10 : Reachable (⟨[1], true, [WStatus.loop],
      [(0, NKind.startN), (0, NKind.uploadN), (0, NKind.succN)], [0], 2⟩ : Sys) :=
    Reachable.step r9 (Step.submit _)
  exact Reachable.step r10 (Step.wLoopDeq _ 1 [] [] rfl rfl)

/-- Witness for C4 on the concrete run of `reach_demo4`. -/
theorem claim4_witness :
    Reachable (⟨[], true, [WStatus.inJob 1 Phase.notifyStartP],
      [(0, NKind.startN), (0, NKind.uploadN), (0, NKind.succN)], [0], 2⟩ : Sys) ∧
    ((⟨[], true, [WStatus.inJob 1 Phase.notifyStartP],
        [(0, NKind.startN), (0, NKind.uploadN), (0, NKind.succN)], [0], 2⟩ : Sys).completed =
      List.range (⟨[], true, [WStatus.inJob 1 Phase.notifyStartP],
        [(0, NKind.startN), (0, NKind.uploadN), (0, NKind.succN)], [0], 2⟩ : Sys).completed.length ∧
    (∀ j ∈ cur (⟨[], true, [WStatus.inJob 1 Phase.notifyStartP],
        [(0, NKind.startN), (0, NKind.uploadN), (0, NKind.succN)], [0], 2⟩ : Sys),
      j = (⟨[], true, [WStatus.inJob 1 Phase.notifyStartP],
        [(0, NKind.startN), (0, NKind.uploadN), (0, NKind.succN)], [0], 2⟩ : Sys).completed.length) ∧
    (⟨[], true, [WStatus.inJob 1 Phase.notifyStartP],
        [(0, NKind.startN), (0, NKind.uploadN), (0, NKind.succN)], [0], 2⟩ : Sys).log.Pairwise
      (fun a b => a.1 ≤ b.1)) :=
  ⟨reach_demo4, claim4_fifo_order reach_demo4⟩

/-- C2 fails on the code: the stranded state — non-empty queue, cleared flag,
no worker — IS reachable, because the worker's failed emptiness test and its
`is_processing = False` are two separate steps.  Trace: job 0 is submitted
and fully processed (fetch fails); the worker then finds the queue empty;
job 1 is submitted while the flag is still set, so no new worker starts; the
worker clears the flag and exits, stranding job 1. -/
theorem claim2_stranding_race :
    ∃ s : Sys, Reachable s ∧ s.queue ≠ [] ∧ s.flag = false ∧ s.workers = [] := by
  refine ⟨⟨[1], false, [], [(0, NKind.startN), (0, NKind.fetchFailN)], [0], 2⟩,
    ?_, by simp, rfl, rfl⟩
  have r1 : Reachable (⟨[0], true, [WStatus.loop], [], [], 1⟩ : Sys) :=
    Reachable.step Reachable.init (Step.submit _)
  have r2 : Reachable (⟨[], true, [WStatus.inJob 0 Phase.notifyStartP], [], [], 1⟩ : Sys) :=
    Reachable.step r1 (Step.wLoopDeq _ 0 [] [] rfl rfl)
  have r3 : Reachable (⟨[], true, [WStatus.inJob 0 Phase.fetchP],
      [(0, NKind.startN)], [], 1⟩ : Sys) :=
    Reachable.step r2 (Step.wNotifyStart _ 0 [] rfl)
  have r4 : Reachable (⟨[], true, [WStatus.inJob 0 Phase.notifyFetchFailP],
      [(0, NKind.startN)], [], 1⟩ : Sys) :=
    Reachable.step r3 (Step.wFetchFail _ 0 [] rfl)
  have r5 : Reachable (⟨[], true, [WStatus.inJob 0 Phase.cleanupP],
      [(0, NKind.startN), (0, NKind.fetchFailN)], [], 1⟩ : Sys) :=
    Reachable.step r4 (Step.wNotifyFetchFail _ 0 [] rfl)
  have r6 : Reachable (⟨[], true, [WStatus.loop],
      [(0, NKind.startN), (0, NKind.fetchFailN)], [0], 1⟩ : Sys) :=
    Reachable.step r5 (Step.wCleanup _ 0 [] rfl)
  have r7 : Reachable (⟨[], true, [WStatus.exiting],
      [(0, NKind.startN), (0, NKind.fetchFailN)], [0], 1⟩ : Sys) :=
    Reachable.step r6 (Step.wLoopEmpty _ [] rfl rfl)
  have r8 : Reachable (⟨[1], true, [WStatus.exiting],
      [(0, NKind.startN), (0, NKind.fetchFailN)], [0], 2⟩ : Sys) :=
    Reachable.step r7 (Step.submit _)
  exact Reachable.step r8 (Step.wExit _ [] rfl)

end StreamtapeBot
